import Mathlib

/-!
Verification development for the summary generation engine of the
`work-record` repository (`src-tauri/src/summary.rs.bak`).

The engine's code is shallowly embedded below: pure string processing is
translated into executable Lean functions, the HTTP layer is represented by
explicit response values handed to the embedded functions, and the side
effects of a run (provider requests, file writes, progress-sink callbacks)
are made explicit as returned traces.  JSON values and the SSE stream
decoding are modelled with a concrete `Json` type and an executable parser
standing in for `serde_json::from_str`.
-/

/-! ## JSON values (model of `serde_json::Value`)

Numbers are kept as their source lexeme: no claim depends on numeric
interpretation, only on the presence and shape of fields. -/

inductive Json where
  | null : Json
  | bool (b : Bool) : Json
  | num (lexeme : String) : Json
  | str (s : String) : Json
  | arr (items : List Json) : Json
  | obj (fields : List (String × Json)) : Json

/-- Model of `serde_json::Value::get(&str)`: field lookup on objects,
`None` on every other variant (first binding wins). -/
def Json.getField : Json → String → Option Json
  | Json.obj fields, key =>
    (fields.find? (fun f => f.1 = key)).map Prod.snd
  | _, _ => none

/-- Model of `serde_json::Value::get(usize)`: index lookup on arrays,
`None` on every other variant. -/
def Json.getIdx : Json → Nat → Option Json
  | Json.arr items, i => items.get? i
  | _, _ => none

/-- Model of `serde_json::Value::as_str`. -/
def Json.asStr : Json → Option String
  | Json.str s => some s
  | _ => none

/-! ## Character-level string helpers

Rust's `str` operations used by the engine are modelled on the underlying
character lists, so that they evaluate inside the kernel. -/

/-- Characters that have to be spelled via their code point. -/
def dquoteChar : Char := Char.ofNat 34

def lbraceChar : Char := Char.ofNat 123

def rbraceChar : Char := Char.ofNat 125

def backslashChar : Char := Char.ofNat 92

/-- Model of Rust `str::starts_with` (character-level prefix test). -/
def strStartsWith (s p : String) : Bool :=
  p.data.isPrefixOf s.data

/-- Model of Rust byte-slicing `&line[n..]` for an ASCII prefix of length
`n` (drops `n` characters). -/
def strDrop (s : String) (n : Nat) : String :=
  ⟨s.data.drop n⟩

/-- Model of Rust `str::ends_with` for a one-character pattern. -/
def strEndsWith (s p : String) : Bool :=
  p.data.isSuffixOf s.data

/-- Drop the last `n` characters. -/
def strDropRight (s : String) (n : Nat) : String :=
  ⟨s.data.take (s.data.length - n)⟩

/-- Contiguous-sublist test on character lists. -/
def infixCheck (p : List Char) : List Char → Bool
  | [] => p.isPrefixOf []
  | c :: cs => p.isPrefixOf (c :: cs) || infixCheck p cs

/-- Model of Rust `str::contains` (substring test). -/
def strContainsSub (s pat : String) : Bool :=
  infixCheck pat.data s.data

/-- Lexicographic order on character lists by code point.  Rust's `str`
`Ord` is byte-lexicographic on UTF-8, which coincides with code-point
lexicographic order. -/
def charListLe : List Char → List Char → Bool
  | [], _ => true
  | _ :: _, [] => false
  | a :: as, b :: bs =>
    if a.toNat < b.toNat then true
    else if b.toNat < a.toNat then false
    else charListLe as bs

/-- The (non-strict) string order used by `Vec::<String>::sort`. -/
def strLe (a b : String) : Prop :=
  charListLe a.data b.data = true

instance : DecidableRel strLe := fun a b =>
  inferInstanceAs (Decidable (charListLe a.data b.data = true))

/-- Strict string order: non-strict and distinct. -/
def strLt (a b : String) : Prop :=
  strLe a b ∧ a ≠ b

/-- Split a character list at every occurrence of `sep`; always returns at
least one (possibly empty) piece.  Model of Rust `str::split(char)`. -/
def splitOnChar (sep : Char) : List Char → List (List Char)
  | [] => [[]]
  | c :: cs =>
    let r := splitOnChar sep cs
    if c = sep then [] :: r
    else
      match r with
      | h :: t => (c :: h) :: t
      | [] => [[c]]

/-- Concatenation of a list of strings (used to state that a streamed
result is the concatenation of its deltas). -/
def concatAll : List String → String
  | [] => ""
  | s :: rest => s ++ concatAll rest

/-! ## JSON parser (model of `serde_json::from_str`)

A fuel-indexed recursive-descent parser over the character list.  The fuel
only bounds recursion depth; `parseJson` supplies enough fuel for any input
it is applied to.  Number tokens are taken greedily from the numeric
alphabet, which accepts every JSON number (the engine never inspects
numeric values of incoming frames). -/

/-- Skip JSON whitespace. -/
def skipWs : List Char → List Char
  | [] => []
  | c :: cs =>
    if c = ' ' ∨ c = Char.ofNat 9 ∨ c = Char.ofNat 10 ∨ c = Char.ofNat 13 then
      skipWs cs
    else c :: cs

/-- Decode the four hex digits of a `\uXXXX` escape. -/
def hexDigitVal (c : Char) : Option Nat :=
  if c.isDigit then some (c.toNat - 48)
  else if 'a' ≤ c ∧ c ≤ 'f' then some (c.toNat - 87)
  else if 'A' ≤ c ∧ c ≤ 'F' then some (c.toNat - 55)
  else none

/-- Parse the body of a JSON string (after the opening quote); returns the
decoded string and the remaining input.  Surrogate pairs are not combined,
which is irrelevant to every claim below. -/
def parseStringBody : Nat → List Char → Option (String × List Char)
  | 0, _ => none
  | _, [] => none
  | fuel + 1, c :: cs =>
    if c = dquoteChar then some ("", cs)
    else if c = backslashChar then
      match cs with
      | [] => none
      | e :: cs2 =>
        if e = 'u' then
          match cs2 with
          | a :: b :: c3 :: d :: cs3 =>
            match hexDigitVal a, hexDigitVal b, hexDigitVal c3, hexDigitVal d with
            | some x, some y, some z, some w =>
              (parseStringBody fuel cs3).map
                (fun p => ((Char.ofNat (x * 4096 + y * 256 + z * 16 + w)).toString ++ p.1, p.2))
            | _, _, _, _ => none
          | _ => none
        else
          let esc : Option Char :=
            if e = dquoteChar then some dquoteChar
            else if e = backslashChar then some backslashChar
            else if e = '/' then some '/'
            else if e = 'n' then some (Char.ofNat 10)
            else if e = 't' then some (Char.ofNat 9)
            else if e = 'r' then some (Char.ofNat 13)
            else if e = 'b' then some (Char.ofNat 8)
            else if e = 'f' then some (Char.ofNat 12)
            else none
          match esc with
          | some ch => (parseStringBody fuel cs2).map (fun p => (ch.toString ++ p.1, p.2))
          | none => none
    else
      (parseStringBody fuel cs).map (fun p => (c.toString ++ p.1, p.2))

/-- Characters a number token may contain. -/
def isNumChar (c : Char) : Bool :=
  c.isDigit || c = '-' || c = '+' || c = '.' || c = 'e' || c = 'E'

/-- Parser mode: a plain value, the items of an array after the first
element started, or the members of an object. -/
inductive PMode where
  | value : PMode
  | arrItems (acc : List Json) : PMode
  | objItems (acc : List (String × Json)) : PMode

/-- Parser result. -/
inductive PRes where
  | val (j : Json) : PRes
  | arrDone (items : List Json) : PRes
  | objDone (fields : List (String × Json)) : PRes

/-- The recursive-descent core, structurally recursive on the fuel. -/
def parseF : Nat → PMode → List Char → Option (PRes × List Char)
  | 0, _, _ => none
  | fuel + 1, PMode.value, cs =>
    match skipWs cs with
    | [] => none
    | c :: rest =>
      if c = dquoteChar then
        (parseStringBody (rest.length + 1) rest).map (fun p => (PRes.val (Json.str p.1), p.2))
      else if c = lbraceChar then
        match skipWs rest with
        | [] => none
        | c2 :: rest2 =>
          if c2 = rbraceChar then some (PRes.val (Json.obj []), rest2)
          else
            match parseF fuel (PMode.objItems []) (c2 :: rest2) with
            | some (PRes.objDone fs, r) => some (PRes.val (Json.obj fs), r)
            | _ => none
      else if c = '[' then
        match skipWs rest with
        | [] => none
        | c2 :: rest2 =>
          if c2 = ']' then some (PRes.val (Json.arr []), rest2)
          else
            match parseF fuel (PMode.arrItems []) (c2 :: rest2) with
            | some (PRes.arrDone xs, r) => some (PRes.val (Json.arr xs), r)
            | _ => none
      else if c = 't' then
        match rest with
        | 'r' :: 'u' :: 'e' :: r => some (PRes.val (Json.bool true), r)
        | _ => none
      else if c = 'f' then
        match rest with
        | 'a' :: 'l' :: 's' :: 'e' :: r => some (PRes.val (Json.bool false), r)
        | _ => none
      else if c = 'n' then
        match rest with
        | 'u' :: 'l' :: 'l' :: r => some (PRes.val Json.null, r)
        | _ => none
      else if c = '-' ∨ c.isDigit then
        some (PRes.val (Json.num ⟨(c :: rest).takeWhile isNumChar⟩),
              (c :: rest).dropWhile isNumChar)
      else none
  | fuel + 1, PMode.arrItems acc, cs =>
    match parseF fuel PMode.value cs with
    | some (PRes.val j, r) =>
      (match skipWs r with
       | c :: r2 =>
         if c = ',' then parseF fuel (PMode.arrItems (acc ++ [j])) r2
         else if c = ']' then some (PRes.arrDone (acc ++ [j]), r2)
         else none
       | [] => none)
    | _ => none
  | fuel + 1, PMode.objItems acc, cs =>
    match skipWs cs with
    | [] => none
    | c :: r =>
      if c = dquoteChar then
        match parseStringBody (r.length + 1) r with
        | some (k, r2) =>
          (match skipWs r2 with
           | c2 :: r3 =>
             if c2 = ':' then
               match parseF fuel PMode.value r3 with
               | some (PRes.val v, r4) =>
                 (match skipWs r4 with
                  | c3 :: r5 =>
                    if c3 = ',' then parseF fuel (PMode.objItems (acc ++ [(k, v)])) r5
                    else if c3 = rbraceChar then some (PRes.objDone (acc ++ [(k, v)]), r5)
                    else none
                  | [] => none)
               | _ => none
             else none
           | [] => none)
        | none => none
      else none

/-- Model of `serde_json::from_str::<serde_json::Value>`: parse a complete
JSON value, allowing trailing whitespace only. -/
def parseJson (s : String) : Option Json :=
  match parseF (4 * s.length + 8) PMode.value s.data with
  | some (PRes.val j, rest) => if skipWs rest = [] then some j else none
  | _ => none

/-! ## SSE stream decoding (`generate_with_external_api_stream`, lines 513-578)

The wire bytes are represented by the chunk strings obtained after
`String::from_utf8_lossy`; each chunk is split into lines exactly as Rust's
`str::lines` does (split at LF, drop one trailing CR per line, no trailing
empty line). -/

/-- Drop the final piece produced by splitting when it is empty (Rust
`str::lines` emits no line after a terminal newline). -/
def dropTrailingEmpty : List (List Char) → List (List Char)
  | [] => []
  | [p] => if p = [] then [] else [p]
  | p :: rest => p :: dropTrailingEmpty rest

/-- Strip one trailing carriage return. -/
def stripCR (s : String) : String :=
  if strEndsWith s "\r" then strDropRight s 1 else s

/-- Model of Rust `str::lines`. -/
def rustLines (s : String) : List String :=
  (dropTrailingEmpty (splitOnChar (Char.ofNat 10) s.data)).map (fun cs => stripCR ⟨cs⟩)

/-- Delta extraction from one decoded frame (lines 536-563): the
OpenAI-compatible shape is tried whenever a top-level `choices` key exists;
only otherwise is the Dashscope shape `output.choices[0].text` consulted. -/
def extractDelta (j : Json) : Option String :=
  match j.getField "choices" with
  | some choices =>
    (match choices.getIdx 0 with
     | some choice =>
       (match choice.getField "delta" with
        | some delta =>
          (match delta.getField "content" with
           | some content => content.asStr
           | none => none)
        | none => none)
     | none => none)
  | none =>
    match j.getField "output" with
    | some output =>
      (match output.getField "choices" with
       | some choices =>
         (match choices.getIdx 0 with
          | some choice =>
            (match choice.getField "text" with
             | some t => t.asStr
             | none => none)
          | none => none)
       | none => none)
    | none => none

/-- Per-line decoding (lines 525-571): the `data: ` prefix is stripped,
`[DONE]` is skipped, JSON parse failures are silently discarded, and a
successful extraction yields the one text delta of the line. -/
def sseLineDelta (line : String) : Option String :=
  if strStartsWith line "data: " then
    let data := strDrop line 6
    if data = "[DONE]" then none
    else
      match parseJson data with
      | some j => extractDelta j
      | none => none
  else none

/-- Deltas of a list of lines, in encounter order. -/
def sseDeltas (lines : List String) : List String :=
  lines.filterMap sseLineDelta

/-- Deltas decoded from the chunk sequence of a response body, in decode
order. -/
def decodedDeltas (chunks : List String) : List String :=
  sseDeltas (chunks.flatMap rustLines)

/-- The streaming read loop (lines 514-578): fold over chunks and lines,
appending each extracted delta to the accumulated result and recording the
progress-callback invocation.  The pair is `(result, sink events)`. -/
def processStream (chunks : List String) : String × List String :=
  chunks.foldl
    (fun st chunk =>
      (rustLines chunk).foldl
        (fun st line =>
          match sseLineDelta line with
          | some text => (st.1 ++ text, st.2 ++ [text])
          | none => st)
        st)
    ("", [])

/-! ## Data model

`LogEntry` lives in `log_manager.rs`, which is not part of the sources;
its shape is taken from the specification's data model.  `Settings` lives
in `settings.rs`, likewise absent; the fields read by `summary.rs.bak` are
modelled directly and its getters are modelled from the specification. -/

/-- Modelled from the spec: `LogEntry` (owned by the log storage
collaborator, `log_manager.rs` is not under the provided sources):
`id`, `content`, `source`, `tags`, `created_at` (ISO timestamp text). -/
structure LogEntry where
  id : Nat
  content : String
  source : String
  tags : List String
  created_at : String

/-- `SummaryType` (lines 14-24). -/
inductive SummaryType where
  | Weekly : SummaryType
  | Monthly : SummaryType
  | Quarterly : SummaryType
  | Custom : SummaryType
deriving DecidableEq

/-- A calendar date as used by the file-name computation; stands for the
`chrono::Local::now()` instant (`%Y`, `%m`, `%d` components). -/
structure Date where
  year : Nat
  month : Nat
  day : Nat

/-- `SummaryConfig` (lines 27-37); dates are the model `Date`. -/
structure SummaryConfig where
  summary_type : SummaryType
  start_date : Option Date
  end_date : Option Date
  title : String

/-- The settings fields read by `summary.rs.bak`; `settings.rs` is not
under the provided sources. -/
structure Settings where
  use_local_ollama : Bool
  ollama_address : String
  ollama_model : String
  llm_api_url : String
  llm_api_key : String
  log_output_dir : String
  doc_dir : Option String

/-- Modelled from the spec: `Settings::get_summary_api_type`
(`settings.rs` is not under the provided sources).  The spec resolves the
provider once per run — local when `use_local` is set, otherwise the
remote dialect is detected from the remote URL containing the Dashscope
marker (type 2), else OpenAI-compatible (type 1). -/
def get_summary_api_type (s : Settings) : Nat :=
  if s.use_local_ollama then 0
  else if strContainsSub s.llm_api_url "dashscope.aliyuncs.com" then 2
  else 1

/-- Modelled from the spec: `Settings::get_summary_api_url` returns the
configured remote URL. -/
def get_summary_api_url (s : Settings) : String :=
  s.llm_api_url

/-- Modelled from the spec: `Settings::get_summary_api_key` returns the
configured remote API key. -/
def get_summary_api_key (s : Settings) : String :=
  s.llm_api_key

/-- The `AppError` variants used by `summary.rs.bak` (`errors.rs` is not
under the provided sources; variant names are taken from the use sites,
with the payload of wrapped library errors reduced to their message). -/
inductive AppError where
  | SummaryError (msg : String) : AppError
  | ReqwestError (msg : String) : AppError
  | SerdeError (msg : String) : AppError
  | IoError (msg : String) : AppError
deriving DecidableEq

/-- An HTTP response for the blocking endpoints: status code, its
`Display` rendering (as produced by `reqwest::StatusCode`), and the body
text. -/
structure HttpResponse where
  status : Nat
  statusStr : String
  body : String

/-- An HTTP response for the streaming endpoint: on failure the body text
is read whole (`errorText`); on success the body arrives as a sequence of
byte chunks, given here after UTF-8 decoding. -/
structure StreamResponse where
  status : Nat
  statusStr : String
  errorText : String
  chunks : List String

/-- Model of `reqwest::StatusCode::is_success` (2xx). -/
def isSuccessStatus (status : Nat) : Prop :=
  200 ≤ status ∧ status < 300

instance (status : Nat) : Decidable (isSuccessStatus status) :=
  inferInstanceAs (Decidable (_ ∧ _))

/-! ## Prompts and corpus serialization -/

/-- The fixed system prompt (lines 137, 180, 197, 630). -/
def systemPromptCN : String :=
  "你是一个专业的工作日志分析助手，擅长总结工作内容并提出见解。"

/-- The per-kind prompt prefix of the blocking `generate_summary`
(lines 95-100). -/
def blockingPromptOfType : SummaryType → String
  | SummaryType.Weekly =>
    "对以下工作日志进行周总结，分析工作内容、成果和存在的问题，提出改进建议。"
  | SummaryType.Monthly =>
    "对以下工作日志进行月度总结，总结月度工作重点、成果和经验教训，提出下月工作计划。"
  | SummaryType.Quarterly =>
    "对以下工作日志进行季度总结，分析季度目标完成情况、主要项目进展、成果和问题，提出下季度规划。"
  | SummaryType.Custom =>
    "对以下指定时间范围内的工作日志进行总结，分析关键工作内容、成果和经验教训。"

/-- `build_prompt` (lines 629-640). -/
def build_prompt (summary_type : SummaryType) (title : String) : String × String :=
  let prompt_system := systemPromptCN
  let prompt :=
    match summary_type with
    | SummaryType.Weekly =>
      "请对以下工作日志进行周总结「" ++ title ++ "」，分析工作内容、成果和存在的问题，提出改进建议。"
    | SummaryType.Monthly =>
      "请对以下工作日志进行月度总结「" ++ title ++ "」，总结月度工作重点、成果和经验教训，提出下月工作计划。"
    | SummaryType.Quarterly =>
      "请对以下工作日志进行季度总结「" ++ title ++ "」，分析季度目标完成情况、主要项目进展、成果和问题，提出下季度规划。"
    | SummaryType.Custom =>
      "请对以下指定时间范围内的工作日志进行总结「" ++ title ++ "」，分析关键工作内容、成果和经验教训。"
  (prompt, prompt_system)

/-- The corpus serialization of `generate_summary` (lines 82-92) and of
`generate_summary_with_stream` (lines 357-364): iterate the date→entries
mapping in its iteration order, with no sorting.  The mapping is given as
its iteration sequence. -/
def logsToContent (logs : List (String × List LogEntry)) : String :=
  logs.foldl
    (fun acc p =>
      (p.2.foldl (fun a e => a ++ ("- " ++ e.content ++ "\n"))
        (acc ++ ("## " ++ p.1 ++ "\n"))) ++ "\n")
    ""

/-- Date key of an entry (line 604): text before the first `T` of
`created_at`. -/
def extractDate (e : LogEntry) : String :=
  match splitOnChar 'T' e.created_at.data with
  | cs :: _ => (⟨cs⟩ : String)
  | [] => "未知日期"

/-- `entry(date).or_default().push(entry)` on the grouping map (line 605):
append to the binding of the key, or add a fresh binding. -/
def groupInsert : List (String × List LogEntry) → String → LogEntry →
    List (String × List LogEntry)
  | [], d, e => [(d, [e])]
  | (k, es) :: rest, d, e =>
    if k = d then (k, es ++ [e]) :: rest
    else (k, es) :: groupInsert rest d e

/-- `HashMap::get` on the grouping map. -/
def lookupGroup : List (String × List LogEntry) → String → Option (List LogEntry)
  | [], _ => none
  | (k, es) :: rest, d => if k = d then some es else lookupGroup rest d

/-- The binding of a key, or `[]`. -/
def lookupOrEmpty (m : List (String × List LogEntry)) (d : String) : List LogEntry :=
  (lookupGroup m d).getD []

/-- The grouping map built from the entry list (lines 602-606).  A
`HashMap` has no intrinsic order; the association list records the
bindings, and every property proved below is insensitive to binding
order because the keys are sorted before rendering. -/
def entriesByDate (logs : List LogEntry) : List (String × List LogEntry) :=
  logs.foldl (fun m e => groupInsert m (extractDate e) e) []

/-- The sorted date keys (lines 609-610); `Vec::sort` on distinct keys is
modelled by insertion sort, which produces the same (unique) sorted
arrangement. -/
def sortedDatesOf (logs : List LogEntry) : List String :=
  List.insertionSort strLe ((entriesByDate logs).map Prod.fst)

/-- `compile_logs_to_string` (lines 598-626). -/
def compile_logs_to_string (logs : List LogEntry) : String :=
  let entries_by_date := entriesByDate logs
  let dates := sortedDatesOf logs
  dates.foldl
    (fun acc date =>
      let acc := acc ++ ("## " ++ date ++ "\n")
      let acc :=
        match lookupGroup entries_by_date date with
        | some entries =>
          entries.foldl (fun a e => a ++ ("- " ++ e.content ++ "\n")) acc
        | none => acc
      acc ++ "\n")
    ""

/-! ## File names (`get_summary_filename`, lines 314-342) -/

/-- Two-digit zero padding (chrono `%m` / `%d`). -/
def pad2 (n : Nat) : String :=
  if n < 10 then "0" ++ toString n else toString n

/-- Four-digit zero padding (chrono `%Y`). -/
def pad4 (n : Nat) : String :=
  if n < 10 then "000" ++ toString n
  else if n < 100 then "00" ++ toString n
  else if n < 1000 then "0" ++ toString n
  else toString n

/-- chrono `format("%Y-%m-%d")`. -/
def formatYMD (d : Date) : String :=
  pad4 d.year ++ "-" ++ pad2 d.month ++ "-" ++ pad2 d.day

/-- `get_summary_filename` (lines 314-342); `now` stands for
`Local::now()`.  `Monthly` renders year and month with plain `Display`
(no zero padding), matching `format!("{}-{}")`. -/
def get_summary_filename (config : SummaryConfig) (now : Date) : String :=
  match config.summary_type with
  | SummaryType.Weekly =>
    "weekly_summary_" ++ formatYMD now ++ ".md"
  | SummaryType.Monthly =>
    "monthly_summary_" ++ toString now.year ++ "-" ++ toString now.month ++ ".md"
  | SummaryType.Quarterly =>
    let quarter := (now.month - 1) / 3 + 1
    "quarterly_summary_" ++ toString now.year ++ "-Q" ++ toString quarter ++ ".md"
  | SummaryType.Custom =>
    let startStr := formatYMD (config.start_date.getD now)
    let endStr := formatYMD (config.end_date.getD now)
    "custom_summary_" ++ startStr ++ "_" ++ endStr ++ ".md"

/-! ## Request payloads -/

/-- Request body of the blocking external call (lines 173-207). -/
def buildBlockingBody (is_dashscope : Bool) (prompt : String) : Json :=
  if is_dashscope then
    Json.obj
      [("model", Json.str "qwen-max"),
       ("messages", Json.arr
         [Json.obj [("role", Json.str "system"), ("content", Json.str systemPromptCN)],
          Json.obj [("role", Json.str "user"), ("content", Json.str prompt)]]),
       ("temperature", Json.num "0.7"),
       ("max_tokens", Json.num "4000")]
  else
    Json.obj
      [("model", Json.str "gpt-4"),
       ("messages", Json.arr
         [Json.obj [("role", Json.str "system"), ("content", Json.str systemPromptCN)],
          Json.obj [("role", Json.str "user"), ("content", Json.str prompt)]]),
       ("temperature", Json.num "0.7"),
       ("max_tokens", Json.num "4000")]

/-- Request body of the streaming external call (lines 425-452): the
user message carries `prompt ++ "\n\n" ++ logs`; the Dashscope dialect is
`api_type == 2`. -/
def buildStreamBody (api_type : Nat) (prompt prompt_system logs : String) : Json :=
  let msgs := Json.arr
    [Json.obj [("role", Json.str "system"), ("content", Json.str prompt_system)],
     Json.obj [("role", Json.str "user"), ("content", Json.str (prompt ++ "\n\n" ++ logs))]]
  if api_type = 2 then
    Json.obj
      [("model", Json.str "qwen-max"),
       ("messages", msgs),
       ("stream", Json.bool true)]
  else
    Json.obj
      [("model", Json.str "gpt-3.5-turbo"),
       ("messages", msgs),
       ("temperature", Json.num "0.7"),
       ("stream", Json.bool true)]

/-! ## Error messages for non-success statuses (streaming, lines 495-508) -/

/-- The message chosen by the `match status.as_u16()` of the streaming
path; `statusStr` stands for the `Display` rendering of the status. -/
def statusErrorMessage (api_type status : Nat) (statusStr text : String) : String :=
  if status = 401 then
    "API认证失败: 无效的API密钥。请在设置中检查您的API密钥。"
  else if status = 403 then
    "API访问被拒绝: 您没有权限访问此资源。请检查API密钥权限。"
  else if status = 404 then
    (if api_type = 2 then
      "百联API资源未找到: 请检查API地址是否正确。确认您使用的是兼容模式URL: https://dashscope.aliyuncs.com/compatible-mode/v1/chat/completions"
    else
      "API资源未找到: 请检查API地址是否正确。")
  else if status = 429 then
    "API请求过多: 已超出速率限制。请稍后再试。"
  else if 500 ≤ status then
    "API服务器错误 " ++ statusStr ++ ": 服务暂时不可用。请稍后再试。"
  else
    "API请求失败: 状态码 " ++ statusStr ++ ", 响应: " ++ text

/-! ## Providers -/

/-- Path join (`Path::new(dir).join(name)`). -/
def joinPath (dir name : String) : String :=
  dir ++ "/" ++ name

/-- `generate_with_ollama` (lines 129-157): non-success status fails with
the status in the message; success deserializes `{ response: text }` and
returns `response` unmodified (a deserialization failure surfaces the
wrapped `reqwest` error). -/
def generate_with_ollama (resp : HttpResponse) : Except AppError String :=
  if isSuccessStatus resp.status then
    match parseJson resp.body with
    | some j =>
      (match (j.getField "response").bind Json.asStr with
       | some r => Except.ok r
       | none => Except.error (AppError.ReqwestError resp.body))
    | none => Except.error (AppError.ReqwestError resp.body)
  else
    Except.error (AppError.SummaryError ("Ollama API 调用失败: " ++ resp.statusStr))

/-- Content extraction of the blocking external call (lines 263-291). -/
def blockingContent (is_dashscope : Bool) (j : Json) : Option String :=
  let standard :=
    ((((j.getField "choices").bind (fun choices => choices.getIdx 0)).bind
      (fun choice => choice.getField "message")).bind
      (fun message => message.getField "content")).bind Json.asStr
  if is_dashscope then
    match standard with
    | some t => some t
    | none => ((j.getField "output").bind (fun output => output.getField "text")).bind Json.asStr
  else standard

/-- Error-message extraction of the blocking external call
(lines 301-306). -/
def blockingErrMsg (j : Json) : String :=
  ((((j.getField "error").bind (fun e => e.getField "message")).bind
    Json.asStr)).getD "未知错误"

/-- The blocking external call with its emitted request recorded
(`requestBody = none` when the configuration check fails before any
request is sent). -/
structure BlockingCall where
  requestBody : Option Json
  outcome : Except AppError String

/-- `generate_with_external_api` (lines 160-311). -/
def generate_with_external_api (s : Settings) (prompt : String) (resp : HttpResponse) :
    BlockingCall :=
  if s.llm_api_url = "" ∨ s.llm_api_key = "" then
    ⟨none, Except.error (AppError.SummaryError "未配置外部 API URL 或 API Key")⟩
  else
    let is_dashscope := strContainsSub s.llm_api_url "dashscope.aliyuncs.com"
    let body := buildBlockingBody is_dashscope prompt
    if isSuccessStatus resp.status then
      match parseJson resp.body with
      | none => ⟨some body, Except.error (AppError.SerdeError resp.body)⟩
      | some j =>
        (match blockingContent is_dashscope j with
         | some text => ⟨some body, Except.ok text⟩
         | none =>
           ⟨some body,
            Except.error (AppError.SummaryError ("无法解析API响应: " ++ blockingErrMsg j))⟩)
    else
      let error_msg :=
        if is_dashscope ∧ resp.status = 404 then
          "阿里云百炼API调用失败: 请检查URL格式与API Key是否正确"
        else
          "外部 API 调用失败: " ++ resp.statusStr ++ " - " ++ resp.body
      ⟨some body, Except.error (AppError.SummaryError error_msg)⟩

/-- Result of a successful streaming run: the accumulated text, the
progress-sink invocations in order, and the files written. -/
structure StreamRun where
  fullText : String
  sinkEvents : List String
  writes : List (String × String)

/-- The streaming external call with its emitted request recorded. -/
structure StreamCall where
  requestBody : Json
  outcome : Except AppError StreamRun

/-- `generate_with_external_api_stream` (lines 401-595).  `title` stands
for the `config.title` referenced at line 583.  The success-path file
write happens only when `doc_dir` is configured. -/
def generate_with_external_api_stream (s : Settings) (prompt prompt_system logs title : String)
    (now : Date) (resp : StreamResponse) : StreamCall :=
  let api_type := get_summary_api_type s
  let requestBody := buildStreamBody api_type prompt prompt_system logs
  if isSuccessStatus resp.status then
    let st := processStream resp.chunks
    let writes :=
      match s.doc_dir with
      | some dir => [(joinPath dir (formatYMD now ++ "-" ++ title ++ ".md"), st.1)]
      | none => []
    ⟨requestBody, Except.ok ⟨st.1, st.2, writes⟩⟩
  else
    ⟨requestBody,
     Except.error (AppError.SummaryError
       (statusErrorMessage api_type resp.status resp.statusStr resp.errorText))⟩

/-! ## Orchestration (`generate_summary`, lines 76-126) -/

/-- Observable side effects of a `generate_summary` run. -/
structure RunTrace where
  providerRequests : Nat
  writes : List (String × String)

/-- `generate_summary` (lines 76-126): serialize the mapping in iteration
order, build the prompt, call the provider selected by
`use_local_ollama`, and on success write the summary to
`log_output_dir/<filename>`.  There is no validation step of any kind
before the provider call. -/
def generate_summary (s : Settings) (logs : List (String × List LogEntry))
    (config : SummaryConfig) (now : Date) (resp : HttpResponse) :
    Except AppError String × RunTrace :=
  let logs_content := logsToContent logs
  let prompt := blockingPromptOfType config.summary_type
  let full_prompt := prompt ++ "\n\n" ++ logs_content
  let summaryRes : Except AppError String × Nat :=
    if s.use_local_ollama then
      (generate_with_ollama resp, 1)
    else
      let call := generate_with_external_api s full_prompt resp
      (call.outcome, if call.requestBody.isSome then 1 else 0)
  match summaryRes.1 with
  | Except.error e => (Except.error e, ⟨summaryRes.2, []⟩)
  | Except.ok summary =>
    let file_name := get_summary_filename config now
    let file_path := joinPath s.log_output_dir file_name
    (Except.ok summary, ⟨summaryRes.2, [(file_path, summary)]⟩)

/-! ## Filesystem model (result persistence, lines 111-125) -/

/-- A filesystem: the set of existing directories and the files with
their contents. -/
structure FileSystem where
  dirs : List String
  files : List (String × String)

/-- Re-join split path components. -/
def joinParts (sep : Char) : List (List Char) → List Char
  | [] => []
  | [p] => p
  | p :: rest => p ++ sep :: joinParts sep rest

/-- `Path::parent`: the path without its final component (none for a
single-component relative path). -/
def parentDir (path : String) : Option String :=
  let parts := splitOnChar '/' path.data
  if parts.length ≤ 1 then none
  else some (⟨joinParts '/' parts.dropLast⟩ : String)

/-- The directory together with all its ancestors. -/
def dirChain (dir : String) : List String :=
  let parts := splitOnChar '/' dir.data
  (List.range parts.length).map (fun i => (⟨joinParts '/' (parts.take (i + 1))⟩ : String))

/-- `fs::create_dir_all`: materialize the directory and every missing
ancestor. -/
def createDirAll (dirs : List String) (dir : String) : List String :=
  dirChain dir ++ dirs

/-- `fs::write`: overwrite the binding of the path, or create it. -/
def setFile : List (String × String) → String → String → List (String × String)
  | [], p, t => [(p, t)]
  | (q, u) :: rest, p, t =>
    if q = p then (p, t) :: rest else (q, u) :: setFile rest p t

/-- Read a file's contents. -/
def readFile (fs : FileSystem) (p : String) : Option String :=
  (fs.files.find? (fun f => f.1 = p)).map Prod.snd

/-- The persistence step of `generate_summary` (lines 111-125): create the
parent directory (and all missing ancestors) when it does not exist, then
write the text, overwriting any existing file. -/
def writeSummaryFile (fs : FileSystem) (path text : String) : FileSystem :=
  let fs1 :=
    match parentDir path with
    | some parent =>
      if parent ∈ fs.dirs then fs else { fs with dirs := createDirAll fs.dirs parent }
    | none => fs
  { fs1 with files := setFile fs1.files path text }

/-! ## Specification-side definitions

These definitions follow the words of the specification and of the claims;
they are compared against the source-derived definitions above. -/

/-- Spec rendering of one date group: a `## <date>` header, one
`- <content>` line per entry, a blank separator line. -/
def renderGroup (g : String × List LogEntry) : String :=
  "## " ++ g.1 ++ "\n" ++ concatAll (g.2.map (fun e => "- " ++ e.content ++ "\n")) ++ "\n"

/-- Spec rendering of a sequence of date groups. -/
def renderGroups (gs : List (String × List LogEntry)) : String :=
  concatAll (gs.map renderGroup)

/-- The dates of the `## ` header lines of a rendered corpus, in order of
appearance. -/
def headerDates (out : String) : List String :=
  ((splitOnChar (Char.ofNat 10) out.data).map (fun cs => (⟨cs⟩ : String))).filterMap
    (fun line => if strStartsWith line "## " then some (strDrop line 3) else none)

/-- The `ProviderError` taxonomy of the specification. -/
inductive ProviderError where
  | AuthFailed : ProviderError
  | Forbidden : ProviderError
  | NotFound (dashscopeHint : Bool) : ProviderError
  | RateLimited : ProviderError
  | ServerUnavailable : ProviderError
  | Generic (status : Nat) (body : String) : ProviderError
deriving DecidableEq

/-- The claims' status-code → variant mapping: 401→AuthFailed,
403→Forbidden, 404→NotFound (with a Dashscope hint for that dialect),
429→RateLimited, ≥500→ServerUnavailable, else→Generic(status, body). -/
def providerErrorOfStatus (isDashscope : Bool) (status : Nat) (body : String) : ProviderError :=
  if status = 401 then ProviderError.AuthFailed
  else if status = 403 then ProviderError.Forbidden
  else if status = 404 then ProviderError.NotFound isDashscope
  else if status = 429 then ProviderError.RateLimited
  else if 500 ≤ status then ProviderError.ServerUnavailable
  else ProviderError.Generic status body

/-- The concrete message the engine attaches to each variant. -/
def renderProviderError : ProviderError → String → String
  | ProviderError.AuthFailed, _ =>
    "API认证失败: 无效的API密钥。请在设置中检查您的API密钥。"
  | ProviderError.Forbidden, _ =>
    "API访问被拒绝: 您没有权限访问此资源。请检查API密钥权限。"
  | ProviderError.NotFound true, _ =>
    "百联API资源未找到: 请检查API地址是否正确。确认您使用的是兼容模式URL: https://dashscope.aliyuncs.com/compatible-mode/v1/chat/completions"
  | ProviderError.NotFound false, _ =>
    "API资源未找到: 请检查API地址是否正确。"
  | ProviderError.RateLimited, _ =>
    "API请求过多: 已超出速率限制。请稍后再试。"
  | ProviderError.ServerUnavailable, statusStr =>
    "API服务器错误 " ++ statusStr ++ ": 服务暂时不可用。请稍后再试。"
  | ProviderError.Generic _ body, statusStr =>
    "API请求失败: 状态码 " ++ statusStr ++ ", 响应: " ++ body

/-- The OpenAI delta shape of the spec: `choices[0].delta.content`. -/
def openaiDelta (j : Json) : Option String :=
  ((((j.getField "choices").bind (fun choices => choices.getIdx 0)).bind
    (fun choice => choice.getField "delta")).bind
    (fun delta => delta.getField "content")).bind Json.asStr

/-- The Dashscope delta shape of the spec: `output.choices[0].text`. -/
def dashscopeDelta (j : Json) : Option String :=
  ((((j.getField "output").bind (fun output => output.getField "choices")).bind
    (fun choices => choices.getIdx 0)).bind
    (fun choice => choice.getField "text")).bind Json.asStr

/-- Writes performed by a streaming outcome (none on the failure path). -/
def streamWrites : Except AppError StreamRun → List (String × String)
  | Except.ok run => run.writes
  | Except.error _ => []

/-! ## Helper lemmas -/

theorem concatAll_append (l₁ l₂ : List String) :
    concatAll (l₁ ++ l₂) = concatAll l₁ ++ concatAll l₂ := by
  induction l₁ with
  | nil => simp [concatAll, String.empty_append]
  | cons x xs ih => simp [concatAll, ih, String.append_assoc]

theorem setFile_read (files : List (String × String)) (p t : String) :
    ((setFile files p t).find? (fun f => f.1 = p)).map Prod.snd = some t := by
  induction files with
  | nil => simp [setFile, List.find?]
  | cons f rest ih =>
    by_cases h : f.1 = p
    · simp [setFile, h, List.find?]
    · simp only [setFile]
      rw [if_neg h]
      simp only [List.find?, decide_eq_false h]
      exact ih

theorem setFile_idem (files : List (String × String)) (p t : String) :
    setFile (setFile files p t) p t = setFile files p t := by
  induction files with
  | nil => simp [setFile]
  | cons f rest ih =>
    by_cases h : f.1 = p
    · simp [setFile, h]
    · simp only [setFile]
      rw [if_neg h]
      simp only [setFile]
      rw [if_neg h, ih]

theorem splitOnChar_ne_nil (sep : Char) (l : List Char) : splitOnChar sep l ≠ [] := by
  cases l with
  | nil => simp [splitOnChar]
  | cons c cs =>
    simp only [splitOnChar]
    by_cases h : c = sep
    · simp [h]
    · rw [if_neg h]
      cases hr : splitOnChar sep cs with
      | nil => simp
      | cons a as => simp

theorem joinParts_splitOnChar (sep : Char) (l : List Char) :
    joinParts sep (splitOnChar sep l) = l := by
  induction l with
  | nil => simp [splitOnChar, joinParts]
  | cons c cs ih =>
    simp only [splitOnChar]
    by_cases h : c = sep
    · rw [if_pos h]
      cases hr : splitOnChar sep cs with
      | nil => exact absurd hr (splitOnChar_ne_nil sep cs)
      | cons a as =>
        rw [hr] at ih
        simp [joinParts, ih, h]
    · rw [if_neg h]
      cases hr : splitOnChar sep cs with
      | nil => exact absurd hr (splitOnChar_ne_nil sep cs)
      | cons a as =>
        rw [hr] at ih
        cases as with
        | nil => simp_all [joinParts]
        | cons b bs => simp_all [joinParts]

theorem mem_dirChain_self (dir : String) : dir ∈ dirChain dir := by
  unfold dirChain
  have hne := splitOnChar_ne_nil '/' dir.data
  have hlen : 0 < (splitOnChar '/' dir.data).length := List.length_pos.mpr hne
  refine List.mem_map.mpr ⟨(splitOnChar '/' dir.data).length - 1, ?_, ?_⟩
  · exact List.mem_range.mpr (by omega)
  · have : (splitOnChar '/' dir.data).length - 1 + 1 = (splitOnChar '/' dir.data).length := by
      omega
    rw [this, List.take_length, joinParts_splitOnChar]

/-! ## C9: result persistence -/

/-- C9: result persistence is idempotent with overwrite semantics: the
write step of `generate_summary` (lines 111-125) first materializes the
missing parent directory (with all its ancestors), then writes the text
overwriting any existing file; reading the path afterwards yields exactly
the text, and re-running the writer with the same text and path leaves the
filesystem unchanged (contents equal the text after each run, never
appended). -/
theorem result_writer_idempotent (fs : FileSystem) (path text : String) :
    readFile (writeSummaryFile fs path text) path = some text ∧
    writeSummaryFile (writeSummaryFile fs path text) path text =
      writeSummaryFile fs path text ∧
    (∀ parent, parentDir path = some parent →
      parent ∈ (writeSummaryFile fs path text).dirs) := by
  have hparent : ∀ parent, parentDir path = some parent →
      parent ∈ (writeSummaryFile fs path text).dirs := by
    intro parent hp
    unfold writeSummaryFile
    rw [hp]
    by_cases hmem : parent ∈ fs.dirs
    · simp [hmem]
    · simp [hmem, createDirAll, mem_dirChain_self parent]
  refine ⟨?_, ?_, hparent⟩
  · unfold writeSummaryFile readFile
    cases hp : parentDir path with
    | none => simpa using setFile_read fs.files path text
    | some parent =>
      by_cases hmem : parent ∈ fs.dirs
      · simpa [hmem] using setFile_read fs.files path text
      · simpa [hmem] using setFile_read fs.files path text
  · cases hp : parentDir path with
    | none =>
      simp only [writeSummaryFile, hp]
      simp [setFile_idem]
    | some parent =>
      by_cases hmem : parent ∈ fs.dirs
      · simp only [writeSummaryFile, hp, if_pos hmem]
        simp [hmem, setFile_idem]
      · simp only [writeSummaryFile, hp]
        rw [if_neg hmem]
        have hin : parent ∈ createDirAll fs.dirs parent := by
          simp [createDirAll, mem_dirChain_self parent]
        simp [hin, setFile_idem]

/-- Witness for C9 at a concrete filesystem, path and text. -/
theorem result_writer_idempotent_witness :
    readFile (writeSummaryFile ⟨[], []⟩ "/out/a.md" "OK") "/out/a.md" = some "OK" ∧
    writeSummaryFile (writeSummaryFile ⟨[], []⟩ "/out/a.md" "OK") "/out/a.md" "OK" =
      writeSummaryFile ⟨[], []⟩ "/out/a.md" "OK" ∧
    "/out" ∈ (writeSummaryFile (⟨[], []⟩ : FileSystem) "/out/a.md" "OK").dirs := by
  have h := result_writer_idempotent ⟨[], []⟩ "/out/a.md" "OK"
  exact ⟨h.1, h.2.1, h.2.2 "/out" rfl⟩

/-! ## C8: output file names -/

/-- C8: the output file name is determined by the summary kind — Weekly
gives `weekly_summary_<today:YYYY-MM-DD>.md`, Monthly gives
`monthly_summary_<year>-<month>.md`, Quarterly gives
`quarterly_summary_<year>-Q<quarter>.md` with
`quarter = (month - 1) / 3 + 1`, which lies in `{1,2,3,4}` for months 1
through 12. -/
theorem summary_filenames_by_kind (config : SummaryConfig) (now : Date) :
    (config.summary_type = SummaryType.Weekly →
      get_summary_filename config now = "weekly_summary_" ++ formatYMD now ++ ".md") ∧
    (config.summary_type = SummaryType.Monthly →
      get_summary_filename config now =
        "monthly_summary_" ++ toString now.year ++ "-" ++ toString now.month ++ ".md") ∧
    (config.summary_type = SummaryType.Quarterly →
      get_summary_filename config now =
        "quarterly_summary_" ++ toString now.year ++ "-Q" ++
          toString ((now.month - 1) / 3 + 1) ++ ".md" ∧
      (1 ≤ now.month → now.month ≤ 12 →
        (now.month - 1) / 3 + 1 = 1 ∨ (now.month - 1) / 3 + 1 = 2 ∨
        (now.month - 1) / 3 + 1 = 3 ∨ (now.month - 1) / 3 + 1 = 4)) := by
  refine ⟨fun h => ?_, fun h => ?_, fun h => ⟨?_, fun h1 h2 => by omega⟩⟩ <;>
    simp [get_summary_filename, h]

/-- Witness for C8 at the Quarterly kind and October 12, 2026. -/
theorem summary_filenames_witness :
    (⟨SummaryType.Quarterly, none, none, ""⟩ : SummaryConfig).summary_type =
      SummaryType.Quarterly ∧
    get_summary_filename ⟨SummaryType.Quarterly, none, none, ""⟩ ⟨2026, 10, 12⟩ =
      "quarterly_summary_2026-Q4.md" ∧
    ((10 - 1) / 3 + 1 = 1 ∨ (10 - 1) / 3 + 1 = 2 ∨
     (10 - 1) / 3 + 1 = 3 ∨ (10 - 1) / 3 + 1 = 4) := by
  have h := (summary_filenames_by_kind ⟨SummaryType.Quarterly, none, none, ""⟩
    ⟨2026, 10, 12⟩).2.2 rfl
  exact ⟨rfl, h.1, h.2 (by decide) (by decide)⟩

/-! ## C1: Custom requests with missing dates -/

/-- C1 counterexample: a `Custom` request with `start_date = none` and
`end_date = none` does not fail with any error — `generate_summary`
performs no validation, issues the (one) provider request, succeeds, and
writes `custom_summary_<today>_<today>.md`; this refutes the claim that
such a request fails with `InvalidRequest` before any network call and
that no file is written. -/
theorem custom_missing_dates_counterexample :
    generate_summary ⟨true, "http://localhost:11434", "llama3", "", "", "/out", none⟩ []
        ⟨SummaryType.Custom, none, none, "自定义"⟩ ⟨2026, 10, 12⟩
        ⟨200, "200 OK", "\x7b\"response\":\"OK\"\x7d"⟩ =
      (Except.ok "OK",
       ⟨1, [("/out/custom_summary_2026-10-12_2026-10-12.md", "OK")]⟩) := rfl

/-- C1 amended: for a `Custom` request with both dates missing,
`generate_summary` does not validate anything — the provider request is
still issued, each missing date defaults to today in the output file name,
and on provider success the file `custom_summary_<today>_<today>.md` is
written with the summary text. -/
theorem custom_missing_dates_default_to_today (s : Settings)
    (logs : List (String × List LogEntry)) (title : String) (now : Date)
    (resp : HttpResponse) (t : String)
    (hlocal : s.use_local_ollama = true)
    (hok : generate_with_ollama resp = Except.ok t) :
    generate_summary s logs ⟨SummaryType.Custom, none, none, title⟩ now resp =
      (Except.ok t,
       ⟨1, [(joinPath s.log_output_dir
              ("custom_summary_" ++ formatYMD now ++ "_" ++ formatYMD now ++ ".md"), t)]⟩) := by
  simp [generate_summary, hlocal, hok, get_summary_filename]

/-- Witness for C1's amended theorem at a concrete local run. -/
theorem custom_missing_dates_default_witness :
    (⟨true, "http://localhost:11434", "llama3", "", "", "/out", none⟩ :
        Settings).use_local_ollama = true ∧
    generate_with_ollama ⟨200, "200 OK", "\x7b\"response\":\"OK\"\x7d"⟩ = Except.ok "OK" ∧
    generate_summary ⟨true, "http://localhost:11434", "llama3", "", "", "/out", none⟩ []
        ⟨SummaryType.Custom, none, none, "自定义"⟩ ⟨2026, 10, 12⟩
        ⟨200, "200 OK", "\x7b\"response\":\"OK\"\x7d"⟩ =
      (Except.ok "OK",
       ⟨1, [(joinPath "/out" ("custom_summary_" ++ formatYMD ⟨2026, 10, 12⟩ ++ "_" ++
              formatYMD ⟨2026, 10, 12⟩ ++ ".md"), "OK")]⟩) := by
  refine ⟨rfl, rfl, ?_⟩
  exact custom_missing_dates_default_to_today
    ⟨true, "http://localhost:11434", "llama3", "", "", "/out", none⟩ [] "自定义"
    ⟨2026, 10, 12⟩ ⟨200, "200 OK", "\x7b\"response\":\"OK\"\x7d"⟩ "OK" rfl rfl

/-! ## C7: local provider success path -/

/-- C7: on a successful local-provider response, the engine returns the
`response` field of the body unmodified, and a Weekly run writes
`weekly_summary_<today>.md` under the output directory containing exactly
that text. -/
theorem local_success_returns_response (s : Settings)
    (logs : List (String × List LogEntry)) (sd ed : Option Date) (title : String)
    (now : Date) (resp : HttpResponse) (j : Json) (t : String)
    (hlocal : s.use_local_ollama = true)
    (hsucc : isSuccessStatus resp.status)
    (hparse : parseJson resp.body = some j)
    (hfield : (j.getField "response").bind Json.asStr = some t) :
    generate_with_ollama resp = Except.ok t ∧
    generate_summary s logs ⟨SummaryType.Weekly, sd, ed, title⟩ now resp =
      (Except.ok t,
       ⟨1, [(joinPath s.log_output_dir ("weekly_summary_" ++ formatYMD now ++ ".md"), t)]⟩) := by
  have holl : generate_with_ollama resp = Except.ok t := by
    simp [generate_with_ollama, hsucc, hparse, hfield]
  exact ⟨holl, by simp [generate_summary, hlocal, holl, get_summary_filename]⟩

/-- Witness for C7: the end-to-end Weekly scenario with a local endpoint
answering `{"response":"OK"}`. -/
theorem local_success_witness :
    isSuccessStatus 200 ∧
    generate_with_ollama ⟨200, "200 OK", "\x7b\"response\":\"OK\"\x7d"⟩ = Except.ok "OK" ∧
    generate_summary ⟨true, "http://localhost:11434", "llama3", "", "", "/out", none⟩ []
        ⟨SummaryType.Weekly, none, none, "周报"⟩ ⟨2026, 10, 12⟩
        ⟨200, "200 OK", "\x7b\"response\":\"OK\"\x7d"⟩ =
      (Except.ok "OK",
       ⟨1, [(joinPath "/out" ("weekly_summary_" ++ formatYMD ⟨2026, 10, 12⟩ ++ ".md"), "OK")]⟩) := by
  have h := local_success_returns_response
    ⟨true, "http://localhost:11434", "llama3", "", "", "/out", none⟩ [] none none "周报"
    ⟨2026, 10, 12⟩ ⟨200, "200 OK", "\x7b\"response\":\"OK\"\x7d"⟩
    (Json.obj [("response", Json.str "OK")]) "OK" rfl (by decide) rfl rfl
  exact ⟨by decide, h.1, h.2⟩

/-! ## C5: non-success status mapping -/

/-- The streaming status `match` factors exactly through the spec's
`ProviderError` classification. -/
theorem statusErrorMessage_factors (api_type status : Nat) (statusStr text : String) :
    statusErrorMessage api_type status statusStr text =
      renderProviderError (providerErrorOfStatus (api_type == 2) status text) statusStr := by
  unfold statusErrorMessage providerErrorOfStatus
  by_cases h1 : status = 401
  · simp [h1, renderProviderError]
  · by_cases h2 : status = 403
    · simp [h1, h2, renderProviderError]
    · by_cases h3 : status = 404
      · by_cases hd : api_type = 2
        · simp [h1, h2, h3, hd, renderProviderError]
        · have hb : (api_type == 2) = false := by
            simp [hd]
          simp [h1, h2, h3, hd, hb, renderProviderError]
      · by_cases h4 : status = 429
        · simp [h1, h2, h3, h4, renderProviderError]
        · by_cases h5 : 500 ≤ status
          · simp [h1, h2, h3, h4, h5, renderProviderError]
          · simp [h1, h2, h3, h4, h5, renderProviderError]

/-- C5: a non-success HTTP status on the streaming path fails with
exactly the message of the `ProviderError` variant determined by the
status code (401→AuthFailed, 403→Forbidden, 404→NotFound with a
Dashscope hint for that dialect, 429→RateLimited, ≥500→ServerUnavailable,
else→Generic(status, body)), and no file is written on this failure
path. -/
theorem stream_error_status_mapping (s : Settings)
    (prompt prompt_system logs title : String) (now : Date) (resp : StreamResponse)
    (hfail : ¬ isSuccessStatus resp.status) :
    (generate_with_external_api_stream s prompt prompt_system logs title now resp).outcome =
      Except.error (AppError.SummaryError
        (renderProviderError
          (providerErrorOfStatus (get_summary_api_type s == 2) resp.status resp.errorText)
          resp.statusStr)) ∧
    streamWrites
      (generate_with_external_api_stream s prompt prompt_system logs title now resp).outcome =
      [] := by
  have h1 : (generate_with_external_api_stream s prompt prompt_system logs title now
      resp).outcome =
      Except.error (AppError.SummaryError
        (statusErrorMessage (get_summary_api_type s) resp.status resp.statusStr
          resp.errorText)) := by
    simp [generate_with_external_api_stream, hfail]
  rw [h1, statusErrorMessage_factors]
  exact ⟨rfl, rfl⟩

/-- Witness for C5: the end-to-end HTTP-401 scenario against a
non-Dashscope remote. -/
theorem stream_error_status_witness :
    ¬ isSuccessStatus 401 ∧
    (generate_with_external_api_stream
        ⟨false, "", "", "https://api.example.com/v1", "k", "/out", none⟩
        "p" "s" "l" "t" ⟨2026, 10, 12⟩ ⟨401, "401 Unauthorized", "denied", []⟩).outcome =
      Except.error (AppError.SummaryError
        (renderProviderError
          (providerErrorOfStatus
            (get_summary_api_type
              ⟨false, "", "", "https://api.example.com/v1", "k", "/out", none⟩ == 2)
            401 "denied")
          "401 Unauthorized")) ∧
    streamWrites
      (generate_with_external_api_stream
        ⟨false, "", "", "https://api.example.com/v1", "k", "/out", none⟩
        "p" "s" "l" "t" ⟨2026, 10, 12⟩ ⟨401, "401 Unauthorized", "denied", []⟩).outcome = [] := by
  have h := stream_error_status_mapping
    ⟨false, "", "", "https://api.example.com/v1", "k", "/out", none⟩
    "p" "s" "l" "t" ⟨2026, 10, 12⟩ ⟨401, "401 Unauthorized", "denied", []⟩ (by decide)
  exact ⟨by decide, h.1, h.2⟩

/-! ## C6: dialect detection and request payloads -/

/-- C6 counterexample: a remote (non-local) blocking generation run
against a Dashscope URL issues a request whose payload carries the
system-then-user messages but no `stream` field at all — refuting the
claim that every remote generation run's payload carries `stream: true`. -/
theorem blocking_payload_no_stream_counterexample :
    (generate_with_external_api
        ⟨false, "", "", "https://dashscope.aliyuncs.com/api/v1/services", "key", "/out", none⟩
        "p" ⟨200, "200 OK", "\x7b\"output\":\x7b\"text\":\"hi\"\x7d\x7d"⟩).requestBody =
      some (buildBlockingBody true "p") ∧
    (buildBlockingBody true "p").getField "stream" = none ∧
    (buildBlockingBody true "p").getField "messages" =
      some (Json.arr
        [Json.obj [("role", Json.str "system"), ("content", Json.str systemPromptCN)],
         Json.obj [("role", Json.str "user"), ("content", Json.str "p")]]) := by
  exact ⟨rfl, rfl, rfl⟩

/-- C6 amended: the streaming remote path always sends
`stream: true` with a system message followed by a user message and a
dialect-fixed model (`qwen-max` for api type 2, `gpt-3.5-turbo`
otherwise), selecting the dialect by the configured api type, which under
the spec-modelled settings getter equals URL-marker detection; the
blocking remote path detects the dialect from the URL marker and sends
the same message structure with a dialect-fixed model (`qwen-max` /
`gpt-4`) but no `stream` field. -/
theorem payload_dialect_amended (s : Settings) (a : Nat)
    (prompt prompt_system logs title : String) (now : Date)
    (resp : HttpResponse) (sresp : StreamResponse) (d : Bool)
    (hremote : s.use_local_ollama = false)
    (hcfg : ¬ (s.llm_api_url = "" ∨ s.llm_api_key = "")) :
    (buildStreamBody a prompt prompt_system logs).getField "stream" =
      some (Json.bool true) ∧
    (buildStreamBody a prompt prompt_system logs).getField "messages" =
      some (Json.arr
        [Json.obj [("role", Json.str "system"), ("content", Json.str prompt_system)],
         Json.obj [("role", Json.str "user"),
                   ("content", Json.str (prompt ++ "\n\n" ++ logs))]]) ∧
    (buildStreamBody a prompt prompt_system logs).getField "model" =
      some (Json.str (if a = 2 then "qwen-max" else "gpt-3.5-turbo")) ∧
    (get_summary_api_type s = 2 ↔
      strContainsSub s.llm_api_url "dashscope.aliyuncs.com" = true) ∧
    (generate_with_external_api_stream s prompt prompt_system logs title now sresp).requestBody =
      buildStreamBody (get_summary_api_type s) prompt prompt_system logs ∧
    (generate_with_external_api s prompt resp).requestBody =
      some (buildBlockingBody (strContainsSub s.llm_api_url "dashscope.aliyuncs.com") prompt) ∧
    (buildBlockingBody d prompt).getField "model" =
      some (Json.str (if d then "qwen-max" else "gpt-4")) ∧
    (buildBlockingBody d prompt).getField "messages" =
      some (Json.arr
        [Json.obj [("role", Json.str "system"), ("content", Json.str systemPromptCN)],
         Json.obj [("role", Json.str "user"), ("content", Json.str prompt)]]) ∧
    (buildBlockingBody d prompt).getField "stream" = none := by
  refine ⟨?_, ?_, ?_, ?_, ?_, ?_, ?_, ?_, ?_⟩
  · by_cases h : a = 2 <;> simp [buildStreamBody, h, Json.getField]
  · by_cases h : a = 2 <;> simp [buildStreamBody, h, Json.getField]
  · by_cases h : a = 2 <;> simp [buildStreamBody, h, Json.getField]
  · simp only [get_summary_api_type, hremote, Bool.false_eq_true, if_false]
    by_cases hc : strContainsSub s.llm_api_url "dashscope.aliyuncs.com" = true
    · simp [hc]
    · simp [hc]
  · by_cases hs : isSuccessStatus sresp.status <;>
      simp [generate_with_external_api_stream, hs]
  · simp only [generate_with_external_api]
    rw [if_neg hcfg]
    by_cases hs : isSuccessStatus resp.status
    · rw [if_pos hs]
      cases hp : parseJson resp.body with
      | none => rfl
      | some j =>
        cases hc : blockingContent
            (strContainsSub s.llm_api_url "dashscope.aliyuncs.com") j <;> simp [hc]
    · rw [if_neg hs]
  · cases d <;> rfl
  · cases d <;> rfl
  · cases d <;> rfl

/-- Witness for C6's amended theorem at a concrete remote Dashscope
configuration. -/
theorem payload_dialect_witness :
    (⟨false, "", "", "https://dashscope.aliyuncs.com/compatible-mode/v1", "key", "/out", none⟩ :
        Settings).use_local_ollama = false ∧
    ¬ ((⟨false, "", "", "https://dashscope.aliyuncs.com/compatible-mode/v1", "key", "/out",
          none⟩ : Settings).llm_api_url = "" ∨
       (⟨false, "", "", "https://dashscope.aliyuncs.com/compatible-mode/v1", "key", "/out",
          none⟩ : Settings).llm_api_key = "") ∧
    (buildStreamBody 2 "p" "s" "l").getField "stream" = some (Json.bool true) ∧
    (get_summary_api_type
        ⟨false, "", "", "https://dashscope.aliyuncs.com/compatible-mode/v1", "key", "/out",
          none⟩ = 2 ↔
      strContainsSub "https://dashscope.aliyuncs.com/compatible-mode/v1"
        "dashscope.aliyuncs.com" = true) ∧
    (generate_with_external_api
        ⟨false, "", "", "https://dashscope.aliyuncs.com/compatible-mode/v1", "key", "/out",
          none⟩ "p" ⟨200, "200 OK", "\x7b\"output\":\x7b\"text\":\"hi\"\x7d\x7d"⟩).requestBody =
      some (buildBlockingBody
        (strContainsSub "https://dashscope.aliyuncs.com/compatible-mode/v1"
          "dashscope.aliyuncs.com") "p") := by
  have h := payload_dialect_amended
    ⟨false, "", "", "https://dashscope.aliyuncs.com/compatible-mode/v1", "key", "/out", none⟩
    2 "p" "s" "l" "t" ⟨2026, 10, 12⟩
    ⟨200, "200 OK", "\x7b\"output\":\x7b\"text\":\"hi\"\x7d\x7d"⟩
    ⟨200, "200 OK", "", []⟩ true rfl (by decide)
  exact ⟨rfl, by decide, h.1, h.2.2.2.1, h.2.2.2.2.2.1⟩

/-! ## C2: streaming order and concatenation -/

/-- The per-chunk line fold appends exactly the line deltas, in order. -/
theorem sseLine_fold_char (lines : List String) (st : String × List String) :
    lines.foldl
      (fun st line =>
        match sseLineDelta line with
        | some text => (st.1 ++ text, st.2 ++ [text])
        | none => st) st =
    (st.1 ++ concatAll (sseDeltas lines), st.2 ++ sseDeltas lines) := by
  induction lines generalizing st with
  | nil => simp [sseDeltas, concatAll, String.append_empty]
  | cons l rest ih =>
    cases h : sseLineDelta l with
    | none =>
      simp only [List.foldl_cons, h]
      rw [ih]
      simp [sseDeltas, List.filterMap_cons, h]
    | some t =>
      simp only [List.foldl_cons, h]
      rw [ih]
      simp [sseDeltas, List.filterMap_cons, h, concatAll, String.append_assoc]

/-- The chunk fold of the streaming read loop accumulates exactly the
decoded deltas. -/
theorem processStream_fold_char (chunks : List String) (st : String × List String) :
    chunks.foldl
      (fun st chunk =>
        (rustLines chunk).foldl
          (fun st line =>
            match sseLineDelta line with
            | some text => (st.1 ++ text, st.2 ++ [text])
            | none => st) st) st =
    (st.1 ++ concatAll (decodedDeltas chunks), st.2 ++ decodedDeltas chunks) := by
  induction chunks generalizing st with
  | nil => simp [decodedDeltas, sseDeltas, concatAll, String.append_empty]
  | cons c rest ih =>
    simp only [List.foldl_cons]
    rw [sseLine_fold_char, ih]
    have hd : decodedDeltas (c :: rest) = sseDeltas (rustLines c) ++ decodedDeltas rest := by
      simp [decodedDeltas, sseDeltas, List.flatMap_cons, List.filterMap_append]
    rw [hd, concatAll_append]
    simp [String.append_assoc, List.append_assoc]

/-- `processStream` returns the concatenation of the decoded deltas and
the deltas themselves as the sink trace. -/
theorem processStream_eq (chunks : List String) :
    processStream chunks = (concatAll (decodedDeltas chunks), decodedDeltas chunks) := by
  have h := processStream_fold_char chunks ("", [])
  simpa [processStream, String.empty_append] using h

/-- C2: on a successful streaming response, the text deltas are handed to
the progress sink in exactly their decode order (none duplicated or
dropped), and the returned full text equals the concatenation of the
delivered deltas; in particular the two frames carrying `"Hello "` and
`"World"` followed by `[DONE]` deliver `["Hello ", "World"]` in order and
produce `"Hello World"`. -/
theorem stream_deltas_order_and_concat (s : Settings)
    (prompt prompt_system logs title : String) (now : Date) (resp : StreamResponse)
    (hsucc : isSuccessStatus resp.status) :
    (generate_with_external_api_stream s prompt prompt_system logs title now resp).outcome =
      Except.ok
        ⟨concatAll (decodedDeltas resp.chunks), decodedDeltas resp.chunks,
         match s.doc_dir with
         | some dir =>
           [(joinPath dir (formatYMD now ++ "-" ++ title ++ ".md"),
             concatAll (decodedDeltas resp.chunks))]
         | none => []⟩ ∧
    decodedDeltas
      ["data: \x7b\"choices\":[\x7b\"delta\":\x7b\"content\":\"Hello \"\x7d\x7d]\x7d\n\n",
       "data: \x7b\"choices\":[\x7b\"delta\":\x7b\"content\":\"World\"\x7d\x7d]\x7d\n\n",
       "data: [DONE]\n\n"] = ["Hello ", "World"] ∧
    concatAll ["Hello ", "World"] = "Hello World" := by
  refine ⟨?_, rfl, rfl⟩
  unfold generate_with_external_api_stream
  rw [if_pos hsucc]
  rw [processStream_eq]

/-- Witness for C2: the end-to-end two-frame scenario evaluated on a
concrete successful response. -/
theorem stream_deltas_order_witness :
    isSuccessStatus 200 ∧
    (generate_with_external_api_stream
        ⟨false, "", "", "https://api.example.com/v1", "k", "/out", none⟩
        "p" "s" "l" "t" ⟨2026, 10, 12⟩
        ⟨200, "200 OK", "",
         ["data: \x7b\"choices\":[\x7b\"delta\":\x7b\"content\":\"Hello \"\x7d\x7d]\x7d\n\n",
          "data: \x7b\"choices\":[\x7b\"delta\":\x7b\"content\":\"World\"\x7d\x7d]\x7d\n\n",
          "data: [DONE]\n\n"]⟩).outcome =
      Except.ok
        ⟨concatAll (decodedDeltas
           ["data: \x7b\"choices\":[\x7b\"delta\":\x7b\"content\":\"Hello \"\x7d\x7d]\x7d\n\n",
            "data: \x7b\"choices\":[\x7b\"delta\":\x7b\"content\":\"World\"\x7d\x7d]\x7d\n\n",
            "data: [DONE]\n\n"]),
         decodedDeltas
           ["data: \x7b\"choices\":[\x7b\"delta\":\x7b\"content\":\"Hello \"\x7d\x7d]\x7d\n\n",
            "data: \x7b\"choices\":[\x7b\"delta\":\x7b\"content\":\"World\"\x7d\x7d]\x7d\n\n",
            "data: [DONE]\n\n"], []⟩ ∧
    decodedDeltas
      ["data: \x7b\"choices\":[\x7b\"delta\":\x7b\"content\":\"Hello \"\x7d\x7d]\x7d\n\n",
       "data: \x7b\"choices\":[\x7b\"delta\":\x7b\"content\":\"World\"\x7d\x7d]\x7d\n\n",
       "data: [DONE]\n\n"] = ["Hello ", "World"] := by
  have h := stream_deltas_order_and_concat
    ⟨false, "", "", "https://api.example.com/v1", "k", "/out", none⟩
    "p" "s" "l" "t" ⟨2026, 10, 12⟩
    ⟨200, "200 OK", "",
     ["data: \x7b\"choices\":[\x7b\"delta\":\x7b\"content\":\"Hello \"\x7d\x7d]\x7d\n\n",
      "data: \x7b\"choices\":[\x7b\"delta\":\x7b\"content\":\"World\"\x7d\x7d]\x7d\n\n",
      "data: [DONE]\n\n"]⟩ (by decide)
  exact ⟨by decide, h.1, h.2.1⟩

/-! ## C4: per-line decoder behaviour -/

/-- Prepending the SSE data prefix is recognized by the prefix test. -/
theorem strStartsWith_data_line (data : String) :
    strStartsWith ("data: " ++ data) "data: " = true := by
  unfold strStartsWith
  rw [String.data_append, List.isPrefixOf_iff_prefix]
  exact List.prefix_append _ _

/-- Stripping the six prefix characters recovers the payload. -/
theorem strDrop_data_line (data : String) : strDrop ("data: " ++ data) 6 = data := by
  unfold strDrop
  rw [String.data_append]
  rw [show (6 : Nat) = ("data: " : String).data.length from rfl, List.drop_left]

/-- The line decoder on a well-formed `data: ` line. -/
theorem sseLineDelta_data (data : String) :
    sseLineDelta ("data: " ++ data) =
      (if data = "[DONE]" then none
       else
        match parseJson data with
        | some j => extractDelta j
        | none => none) := by
  unfold sseLineDelta
  rw [strStartsWith_data_line, strDrop_data_line]
  simp

/-- C4: fed a single SSE line, the decoder yields exactly one delta with
exactly the extracted text when the JSON parses and carries a
delta-content field; yields zero events on a malformed JSON payload (and
the surrounding run continues, the neighbouring lines being decoded as if
the malformed line were absent); and yields zero events on `data: [DONE]`
(a no-op, not an error). -/
theorem sse_single_line_behavior :
    (∀ (data : String) (j : Json) (t : String),
      parseJson data = some j → extractDelta j = some t →
      sseDeltas ["data: " ++ data] = [t]) ∧
    (∀ data : String, parseJson data = none → sseDeltas ["data: " ++ data] = []) ∧
    sseDeltas ["data: [DONE]"] = [] ∧
    (∀ (pre post : List String) (data : String), parseJson data = none →
      sseDeltas (pre ++ ("data: " ++ data) :: post) = sseDeltas pre ++ sseDeltas post) := by
  have hmal : ∀ data : String, parseJson data = none →
      sseLineDelta ("data: " ++ data) = none := by
    intro data hp
    rw [sseLineDelta_data]
    by_cases hd : data = "[DONE]"
    · simp [hd]
    · simp [hd, hp]
  refine ⟨?_, ?_, rfl, ?_⟩
  · intro data j t hp he
    have hd : ¬ data = "[DONE]" := by
      intro hEq
      rw [hEq] at hp
      have hnone : parseJson "[DONE]" = none := rfl
      rw [hnone] at hp
      exact Option.noConfusion hp
    simp [sseDeltas, List.filterMap, sseLineDelta_data, hd, hp, he]
  · intro data hp
    simp [sseDeltas, List.filterMap, hmal data hp]
  · intro pre post data hp
    simp [sseDeltas, List.filterMap_append, List.filterMap_cons, hmal data hp]

/-- Witness for C4: a delta frame, a malformed frame and the `[DONE]`
sentinel, each fed as a single line. -/
theorem sse_single_line_witness :
    parseJson "\x7b\"choices\":[\x7b\"delta\":\x7b\"content\":\"Hello \"\x7d\x7d]\x7d" =
      some (Json.obj [("choices",
        Json.arr [Json.obj [("delta", Json.obj [("content", Json.str "Hello ")])]])]) ∧
    extractDelta (Json.obj [("choices",
      Json.arr [Json.obj [("delta", Json.obj [("content", Json.str "Hello ")])]])]) =
      some "Hello " ∧
    sseDeltas ["data: " ++ "\x7b\"choices\":[\x7b\"delta\":\x7b\"content\":\"Hello \"\x7d\x7d]\x7d"] =
      ["Hello "] ∧
    parseJson "\x7binvalid" = none ∧
    sseDeltas ["data: " ++ "\x7binvalid"] = [] ∧
    sseDeltas ["data: [DONE]"] = [] := by
  refine ⟨rfl, rfl, ?_, rfl, ?_, sse_single_line_behavior.2.2.1⟩
  · exact sse_single_line_behavior.1
      "\x7b\"choices\":[\x7b\"delta\":\x7b\"content\":\"Hello \"\x7d\x7d]\x7d"
      (Json.obj [("choices",
        Json.arr [Json.obj [("delta", Json.obj [("content", Json.str "Hello ")])]])])
      "Hello " rfl rfl
  · exact sse_single_line_behavior.2.1 "\x7binvalid" rfl

/-! ## C10: decoder shape precedence -/

/-- C10: the OpenAI shape is tried exactly when the frame has a top-level
`choices` key (whatever its contents); the Dashscope shape
`output.choices[0].text` is consulted only when `choices` is absent;
consequently a frame with an unusable `choices` key and a valid Dashscope
field yields no delta, as the concrete combined frame confirms. -/
theorem decoder_shape_precedence :
    (∀ (j c : Json), j.getField "choices" = some c → extractDelta j = openaiDelta j) ∧
    (∀ j : Json, j.getField "choices" = none → extractDelta j = dashscopeDelta j) ∧
    (∀ (j c : Json) (t : String), j.getField "choices" = some c →
      openaiDelta j = none → dashscopeDelta j = some t → extractDelta j = none) ∧
    sseDeltas
      ["data: \x7b\"choices\":[],\"output\":\x7b\"choices\":[\x7b\"text\":\"hi\"\x7d]\x7d\x7d"] =
      [] := by
  have hopen : ∀ (j c : Json), j.getField "choices" = some c →
      extractDelta j = openaiDelta j := by
    intro j c h
    simp only [extractDelta, openaiDelta, h, Option.some_bind]
    cases h1 : c.getIdx 0 with
    | none => simp [h1]
    | some choice =>
      simp only [h1, Option.some_bind]
      cases h2 : choice.getField "delta" with
      | none => simp [h2]
      | some delta =>
        simp only [h2, Option.some_bind]
        cases h3 : delta.getField "content" with
        | none => simp [h3]
        | some content => simp [h3]
  have hdash : ∀ j : Json, j.getField "choices" = none →
      extractDelta j = dashscopeDelta j := by
    intro j h
    simp only [extractDelta, dashscopeDelta, h, Option.none_bind]
    cases h0 : j.getField "output" with
    | none => simp
    | some output =>
      simp only [Option.some_bind]
      cases h1 : output.getField "choices" with
      | none => simp [h1]
      | some choices =>
        simp only [h1, Option.some_bind]
        cases h2 : choices.getIdx 0 with
        | none => simp [h2]
        | some choice =>
          simp only [h2, Option.some_bind]
          cases h3 : choice.getField "text" with
          | none => simp [h3]
          | some t => simp [h3]
  refine ⟨hopen, hdash, ?_, rfl⟩
  intro j c t h ho _
  rw [hopen j c h, ho]

/-- Witness for C10: the combined frame with an empty `choices` array and
a valid Dashscope `output.choices[0].text` field. -/
theorem decoder_shape_witness :
    (Json.obj [("choices", Json.arr []),
      ("output", Json.obj [("choices",
        Json.arr [Json.obj [("text", Json.str "hi")]])])]).getField "choices" =
      some (Json.arr []) ∧
    openaiDelta (Json.obj [("choices", Json.arr []),
      ("output", Json.obj [("choices",
        Json.arr [Json.obj [("text", Json.str "hi")]])])]) = none ∧
    dashscopeDelta (Json.obj [("choices", Json.arr []),
      ("output", Json.obj [("choices",
        Json.arr [Json.obj [("text", Json.str "hi")]])])]) = some "hi" ∧
    extractDelta (Json.obj [("choices", Json.arr []),
      ("output", Json.obj [("choices",
        Json.arr [Json.obj [("text", Json.str "hi")]])])]) = none := by
  refine ⟨rfl, rfl, rfl, ?_⟩
  exact decoder_shape_precedence.2.2.1
    (Json.obj [("choices", Json.arr []),
      ("output", Json.obj [("choices",
        Json.arr [Json.obj [("text", Json.str "hi")]])])])
    (Json.arr []) "hi" rfl rfl rfl

/-! ## C3: corpus serialization order -/

theorem charListLe_total (as bs : List Char) :
    charListLe as bs = true ∨ charListLe bs as = true := by
  induction as generalizing bs with
  | nil => exact Or.inl rfl
  | cons a as ih =>
    cases bs with
    | nil => exact Or.inr rfl
    | cons b bs =>
      by_cases hab : a.toNat < b.toNat
      · exact Or.inl (by simp [charListLe, hab])
      · by_cases hba : b.toNat < a.toNat
        · exact Or.inr (by simp [charListLe, hba])
        · rcases ih bs with h | h
          · exact Or.inl (by simp [charListLe, hab, hba, h])
          · exact Or.inr (by simp [charListLe, hab, hba, h])

theorem charListLe_trans (as bs cs : List Char) (h1 : charListLe as bs = true)
    (h2 : charListLe bs cs = true) : charListLe as cs = true := by
  induction as generalizing bs cs with
  | nil => rfl
  | cons a as ih =>
    cases bs with
    | nil => simp [charListLe] at h1
    | cons b bs =>
      cases cs with
      | nil => simp [charListLe] at h2
      | cons c cs =>
        simp only [charListLe] at h1 h2 ⊢
        by_cases hab : a.toNat < b.toNat
        · by_cases hbc : b.toNat < c.toNat
          · simp [show a.toNat < c.toNat by omega]
          · by_cases hcb : c.toNat < b.toNat
            · simp [hbc, hcb] at h2
            · simp [show a.toNat < c.toNat by omega]
        · by_cases hba : b.toNat < a.toNat
          · simp [hab, hba] at h1
          · by_cases hbc : b.toNat < c.toNat
            · simp [show a.toNat < c.toNat by omega]
            · by_cases hcb : c.toNat < b.toNat
              · simp [hbc, hcb] at h2
              · have hac : ¬ a.toNat < c.toNat := by omega
                have hca : ¬ c.toNat < a.toNat := by omega
                rw [if_neg hac, if_neg hca]
                rw [if_neg hab, if_neg hba] at h1
                rw [if_neg hbc, if_neg hcb] at h2
                exact ih bs cs h1 h2

theorem keys_groupInsert (m : List (String × List LogEntry)) (d : String) (e : LogEntry) :
    (groupInsert m d e).map Prod.fst =
      if d ∈ m.map Prod.fst then m.map Prod.fst else m.map Prod.fst ++ [d] := by
  induction m with
  | nil => simp [groupInsert]
  | cons p rest ih =>
    obtain ⟨q, es⟩ := p
    by_cases h : q = d
    · subst h
      simp [groupInsert]
    · simp only [groupInsert]
      rw [if_neg h]
      simp only [List.map_cons]
      rw [ih]
      by_cases hm : d ∈ rest.map Prod.fst
      · rw [if_pos hm, if_pos (by simp [hm])]
      · rw [if_neg hm, if_neg (by simp [hm, Ne.symm h])]
        simp

theorem mem_keys_groupInsert (m : List (String × List LogEntry)) (k d : String)
    (e : LogEntry) :
    d ∈ (groupInsert m k e).map Prod.fst ↔ d ∈ m.map Prod.fst ∨ d = k := by
  rw [keys_groupInsert]
  by_cases hm : k ∈ m.map Prod.fst
  · rw [if_pos hm]
    constructor
    · exact Or.inl
    · rintro (h | h)
      · exact h
      · rw [h]
        exact hm
  · rw [if_neg hm]
    simp

theorem keys_nodup_fold (logs : List LogEntry) (m : List (String × List LogEntry))
    (hm : (m.map Prod.fst).Nodup) :
    (((logs.foldl (fun m e => groupInsert m (extractDate e) e) m)).map Prod.fst).Nodup := by
  induction logs generalizing m with
  | nil => simpa using hm
  | cons e rest ih =>
    simp only [List.foldl_cons]
    apply ih
    rw [keys_groupInsert]
    by_cases hmem : extractDate e ∈ m.map Prod.fst
    · rw [if_pos hmem]
      exact hm
    · rw [if_neg hmem]
      refine List.Nodup.append hm (List.nodup_singleton _) ?_
      intro x hx hx2
      simp only [List.mem_singleton] at hx2
      rw [hx2] at hx
      exact hmem hx

theorem mem_keys_fold (logs : List LogEntry) (m : List (String × List LogEntry))
    (d : String) :
    d ∈ ((logs.foldl (fun m e => groupInsert m (extractDate e) e) m)).map Prod.fst ↔
      d ∈ m.map Prod.fst ∨ d ∈ logs.map extractDate := by
  induction logs generalizing m with
  | nil => simp
  | cons e rest ih =>
    simp only [List.foldl_cons]
    rw [ih, mem_keys_groupInsert]
    simp only [List.map_cons, List.mem_cons]
    tauto

theorem lookupOrEmpty_groupInsert (m : List (String × List LogEntry)) (k d : String)
    (e : LogEntry) :
    lookupOrEmpty (groupInsert m k e) d =
      lookupOrEmpty m d ++ (if k = d then [e] else []) := by
  induction m with
  | nil =>
    by_cases h : k = d <;> simp [groupInsert, lookupOrEmpty, lookupGroup, h]
  | cons p rest ih =>
    obtain ⟨q, es⟩ := p
    by_cases hqk : q = k
    · by_cases hqd : q = d
      · have hkd : k = d := by rw [← hqk]; exact hqd
        simp [groupInsert, lookupOrEmpty, lookupGroup, hqk, hqd, hkd]
      · have hkd : ¬ k = d := by rw [← hqk]; exact hqd
        simp [groupInsert, lookupOrEmpty, lookupGroup, hqk, hqd, hkd]
    · by_cases hqd : q = d
      · have hkd : ¬ k = d := fun h => hqk (by rw [hqd, h])
        have hdk : ¬ d = k := fun h => hkd h.symm
        simp [groupInsert, lookupOrEmpty, lookupGroup, hqk, hqd, hkd, hdk]
      · have hih := ih
        simp only [lookupOrEmpty] at hih
        simp [groupInsert, lookupOrEmpty, lookupGroup, hqk, hqd, hih]

theorem lookupOrEmpty_fold (logs : List LogEntry) (m : List (String × List LogEntry))
    (d : String) :
    lookupOrEmpty (logs.foldl (fun m e => groupInsert m (extractDate e) e) m) d =
      lookupOrEmpty m d ++ logs.filter (fun e => extractDate e == d) := by
  induction logs generalizing m with
  | nil => simp
  | cons e rest ih =>
    simp only [List.foldl_cons]
    rw [ih, lookupOrEmpty_groupInsert, List.filter_cons]
    by_cases h : extractDate e = d
    · simp [h, List.append_assoc]
    · simp [h]

theorem inner_render_fold (es : List LogEntry) (a : String) :
    es.foldl (fun a e => a ++ ("- " ++ e.content ++ "\n")) a =
      a ++ concatAll (es.map (fun e => "- " ++ e.content ++ "\n")) := by
  induction es generalizing a with
  | nil => simp [concatAll, String.append_empty]
  | cons e rest ih =>
    simp only [List.foldl_cons, List.map_cons, concatAll]
    rw [ih, String.append_assoc]

theorem dates_render_fold (dates : List String) (m : List (String × List LogEntry))
    (acc : String) :
    dates.foldl
      (fun acc date =>
        let acc := acc ++ ("## " ++ date ++ "\n")
        let acc :=
          match lookupGroup m date with
          | some entries =>
            entries.foldl (fun a e => a ++ ("- " ++ e.content ++ "\n")) acc
          | none => acc
        acc ++ "\n") acc =
      acc ++ concatAll (dates.map (fun d => renderGroup (d, lookupOrEmpty m d))) := by
  induction dates generalizing acc with
  | nil => simp [concatAll, String.append_empty]
  | cons d rest ih =>
    simp only [List.foldl_cons, List.map_cons, concatAll]
    cases hl : lookupGroup m d with
    | none =>
      rw [ih]
      simp [renderGroup, lookupOrEmpty, hl, concatAll, String.append_empty,
        String.append_assoc]
    | some es =>
      rw [ih]
      simp only [inner_render_fold]
      simp [renderGroup, lookupOrEmpty, hl, String.append_assoc]

/-- C3 counterexample: the serializer that `generate_summary` actually
uses renders the mapping in its iteration order — an iteration order
`[2024-01-02, 2024-01-01]` produces date headers in that (descending)
order, refuting the claim that the headers are ascending regardless of
the mapping's iteration order. -/
theorem corpus_headers_unsorted_counterexample :
    headerDates (logsToContent
      [("2024-01-02", [⟨2, "b", "", [], "2024-01-02T08:00:00"⟩]),
       ("2024-01-01", [⟨1, "a", "", [], "2024-01-01T08:00:00"⟩])]) =
      ["2024-01-02", "2024-01-01"] ∧
    ¬ List.Sorted strLe (headerDates (logsToContent
      [("2024-01-02", [⟨2, "b", "", [], "2024-01-02T08:00:00"⟩]),
       ("2024-01-01", [⟨1, "a", "", [], "2024-01-01T08:00:00"⟩])])) := by
  exact ⟨rfl, by decide⟩

/-- C3 amended: the list-consuming serializer `compile_logs_to_string`
renders exactly one `## <date>` group per distinct date, the date headers
in strictly ascending order, each followed by one `- <content>` line per
entry in storage order: the output is the spec rendering of the sorted
date groups, the sorted date list is strictly sorted, each date's group
is the storage-order sublist of entries carrying that date, and the
rendered dates are exactly the dates occurring in the input. -/
theorem compile_logs_sorted_headers (logs : List LogEntry) :
    compile_logs_to_string logs =
      renderGroups ((sortedDatesOf logs).map
        (fun d => (d, lookupOrEmpty (entriesByDate logs) d))) ∧
    List.Sorted strLt (sortedDatesOf logs) ∧
    (∀ d : String, lookupOrEmpty (entriesByDate logs) d =
      logs.filter (fun e => extractDate e == d)) ∧
    (∀ d : String, d ∈ sortedDatesOf logs ↔ d ∈ logs.map extractDate) := by
  refine ⟨?_, ?_, ?_, ?_⟩
  · unfold compile_logs_to_string
    rw [dates_render_fold]
    rw [String.empty_append]
    simp only [renderGroups, List.map_map]
    rfl
  · haveI htot : IsTotal String strLe := ⟨fun a b => charListLe_total a.data b.data⟩
    haveI htrans : IsTrans String strLe :=
      ⟨fun a b c h1 h2 => charListLe_trans a.data b.data c.data h1 h2⟩
    have hle : List.Sorted strLe (sortedDatesOf logs) :=
      List.sorted_insertionSort strLe ((entriesByDate logs).map Prod.fst)
    have hnd : (sortedDatesOf logs).Nodup := by
      have hperm := List.perm_insertionSort strLe ((entriesByDate logs).map Prod.fst)
      have hkeys : ((entriesByDate logs).map Prod.fst).Nodup :=
        keys_nodup_fold logs [] (by simp)
      exact hperm.nodup_iff.mpr hkeys
    exact hle.imp₂ (fun a b h1 h2 => ⟨h1, h2⟩) hnd
  · intro d
    have h := lookupOrEmpty_fold logs [] d
    simpa [lookupOrEmpty, lookupGroup] using h
  · intro d
    rw [sortedDatesOf, List.mem_insertionSort]
    have hmem := mem_keys_fold logs [] d
    simpa using hmem
